import Mathlib

/-!
Shallow embedding of the Esker Lodge timesheet/payroll reconciliation engine
(source: timesheet_payroll_comparison_detailed.py, with the alternative name
normalizer from timesheet_payroll_comparison.py). Cells of a dataframe are
modelled as an inductive type covering null, string and numeric values;
floating point numbers are modelled as rationals.
-/

attribute [local semireducible] Rat.add Rat.mul Rat.inv Rat.sub Rat.ofScientific

namespace EskerLodge

/-- A dataframe cell: null (NaN), a string, or a number. -/
inductive Cell where
  | null : Cell
  | str : String → Cell
  | num : ℚ → Cell
deriving DecidableEq

/-- Remove leading and trailing whitespace characters, as Python strip. -/
def stripL (l : List Char) : List Char :=
  ((l.dropWhile Char.isWhitespace).reverse.dropWhile Char.isWhitespace).reverse

/-- Strip a string, as Python str.strip. -/
def pyStripS (s : String) : String := String.mk (stripL s.toList)

/-- Split a character list on a separator, as Python str.split with one
separator: always returns at least one (possibly empty) segment. -/
def splitChar (sep : Char) : List Char → List (List Char)
  | [] => [[]]
  | c :: cs =>
    match splitChar sep cs with
    | [] => [[]]
    | g :: gs => if c = sep then [] :: g :: gs else (c :: g) :: gs

/-- Value of a nonempty all-digit character list, else none. -/
def digitsVal (l : List Char) : Option Nat :=
  if l.isEmpty then none
  else if l.all Char.isDigit then
    some (l.foldl (fun a c => 10 * a + (c.toNat - 48)) 0)
  else none

/-- Python int(s) on a stripped token: optional sign followed by digits. -/
def pyInt (l : List Char) : Option Int :=
  match stripL l with
  | [] => none
  | c :: rest =>
    if c = '-' then (digitsVal rest).map (fun n => -(n : Int))
    else if c = '+' then (digitsVal rest).map (fun n => (n : Int))
    else (digitsVal (c :: rest)).map (fun n => (n : Int))

/-- Numeric value of a digit list read as a fraction numerator. -/
def digitsNum (l : List Char) : ℚ :=
  (l.foldl (fun a c => 10 * a + (c.toNat - 48)) 0 : ℕ)

/-- Unsigned float literal: digits, or digits.digits with at least one digit
in total (Python accepts "5." and ".5" but not "."). -/
def pyFloatMag (l : List Char) : Option ℚ :=
  match splitChar '.' l with
  | [a] => (digitsVal a).map (fun n => (n : ℚ))
  | [a, b] =>
    if a.isEmpty && b.isEmpty then none
    else if a.all Char.isDigit && b.all Char.isDigit then
      some (digitsNum a + digitsNum b / (10 : ℚ) ^ b.length)
    else none
  | _ => none

/-- Python float(s): optional sign, then an unsigned float literal.
Exotic accepted forms (exponents, inf, nan) are outside this model. -/
def pyFloat (l : List Char) : Option ℚ :=
  match stripL l with
  | [] => none
  | c :: rest =>
    if c = '-' then (pyFloatMag rest).map (fun q => -q)
    else if c = '+' then pyFloatMag rest
    else pyFloatMag (c :: rest)

/-- Round to two decimal places. Python round is half-to-even on the
underlying float; on the clock-time domain hours + minutes/60 an exact tie
at the second decimal is impossible, so half-up is an equivalent model. -/
def round2 (q : ℚ) : ℚ := (round (q * 100) : ℚ) / 100

/-- pd.to_numeric with errors coerced to NaN (none). -/
def pyToNumeric : Cell → Option ℚ
  | .null => none
  | .num q => some q
  | .str s => pyFloat s.toList

/-- to_numeric followed by fillna(0). -/
def cellNum (c : Cell) : ℚ := (pyToNumeric c).getD 0

/-- convert_time_to_hours from the timesheet loader: null, empty or "00:00"
give 0.0; a string with a colon is parsed as H:MM (extra segments ignored,
parse failure gives 0.0); otherwise float conversion with 0.0 fallback.
A numeric cell passes through str and float unchanged. -/
def convert_time_to_hours : Cell → ℚ
  | .null => 0
  | .num q => q
  | .str s =>
    if s = "" ∨ s = "00:00" then 0
    else if (stripL s.toList).contains ':' then
      match splitChar ':' (stripL s.toList) with
      | p0 :: p1 :: _ =>
        match pyInt p0, pyInt p1 with
        | some h, some m => round2 ((h : ℚ) + (m : ℚ) / 60)
        | _, _ => 0
      | _ => 0
    else (pyFloat (stripL s.toList)).getD 0

/-- Python str.title over ASCII: a letter is uppercased when the previous
character is not a letter, lowercased otherwise. The flag records whether
the previous character was a letter. -/
def titleL : Bool → List Char → List Char
  | _, [] => []
  | prev, c :: cs =>
    if c.isAlpha then (if prev then c.toLower else c.toUpper) :: titleL true cs
    else c :: titleL false cs

/-- re.sub of one or more whitespace characters by a single space: the flag
records whether the previous character was whitespace, so each maximal
whitespace run contributes exactly one space. -/
def collapseWs : Bool → List Char → List Char
  | _, [] => []
  | prevWs, c :: cs =>
    if c.isWhitespace then
      if prevWs then collapseWs true cs else ' ' :: collapseWs true cs
    else c :: collapseWs false cs

/-- Left-to-right non-overlapping replacement of "Mc " by "Mc", as the
str.replace call in the detailed clean_name. -/
def replaceMcSpace : List Char → List Char
  | 'M' :: 'c' :: ' ' :: rest => 'M' :: 'c' :: replaceMcSpace rest
  | c :: rest => c :: replaceMcSpace rest
  | [] => []

/-- clean_name from timesheet_payroll_comparison_detailed.py: strip,
collapse whitespace, title-case, then the Mc-space replacement. The second
replace call in the source maps the two-character string O-apostrophe to
itself and is omitted here as an identity. There is no comma handling. -/
def clean_name_detailed : Option String → String
  | none => ""
  | some n =>
    if n = "" then ""
    else String.mk (replaceMcSpace (titleL false (collapseWs false (stripL n.toList))))

/-- clean_name from timesheet_payroll_comparison.py: strip, then if the
comma split yields exactly two segments, reassemble stripped segments as
forename-title space surname-title; otherwise title-case the whole. -/
def clean_name_comparison : Option String → String
  | none => ""
  | some n =>
    if n = "" then ""
    else
      match splitChar ',' (stripL n.toList) with
      | [a, b] =>
        String.mk (titleL false (stripL b)) ++ " " ++ String.mk (titleL false (stripL a))
      | _ => String.mk (titleL false (stripL n.toList))

/-- Python str() applied to a possibly missing value: NaN prints as "nan". -/
def pyStr (o : Option String) : String := o.getD "nan"

/-! ## Normalized records -/

/-- One cleaned timesheet row (one employee, one week). -/
structure TimesheetRow where
  employee_id : ℚ
  name_cleaned : String
  department : Option String
  yearWeek : String
  total_hours : ℚ
deriving DecidableEq

/-- One cleaned payroll row with its computed hour total. Per-category
values also live on the row in the source; the reconciliation claims only
concern the total, which is computed by totalPayrollHours below. -/
structure PayrollRow where
  employee_id : ℚ
  name_cleaned : String
  depart : Option String
  total_payroll_hours : ℚ
deriving DecidableEq

/-- One row of the merged comparison table built by compare_hours_detailed. -/
structure CompRow where
  employee_id : ℚ
  employee_name : String
  department : Option String
  timesheet_hours : ℚ
  payroll_hours_total : ℚ
  total_difference : ℚ
  mismatch : Bool
  in_timesheet : Bool
  in_payroll : Bool
  in_both : Bool
deriving DecidableEq

/-! ## Raw rows and loaders -/

/-- A raw timesheet CSV row (the columns the loader reads). -/
structure RawTimesheetRow where
  staffNumber : Cell
  name : Option String
  departmentName : Option String
  yearWeek : String
  totalHours : Cell

/-- A raw payroll Excel row: identity columns plus the named value columns. -/
structure RawPayrollRow where
  sequence : Cell
  forename : Option String
  surname : Option String
  depart : Option String
  values : List (String × Cell)

/-- Row treatment of load_and_clean_timesheet_data: convert hours, resolve
Employee_ID by numeric coercion of Staff Number, drop the row when the id is
missing or non-positive. -/
def loadTsRow (r : RawTimesheetRow) : Option TimesheetRow :=
  match pyToNumeric r.staffNumber with
  | none => none
  | some i =>
    if 0 < i then
      some { employee_id := i
             name_cleaned := clean_name_detailed r.name
             department := r.departmentName
             yearWeek := r.yearWeek
             total_hours := convert_time_to_hours r.totalHours }
    else none

/-- load_and_clean_timesheet_data over all CSV rows. -/
def load_and_clean_timesheet_data (raws : List RawTimesheetRow) : List TimesheetRow :=
  raws.filterMap loadTsRow

/-- Whether one character list starts with another. -/
def startsWithL : List Char → List Char → Bool
  | [], _ => true
  | _ :: _, [] => false
  | p :: ps, c :: cs => p = c && startsWithL ps cs

/-- Substring test, as the Python in operator on strings. -/
def hasSub (pat : List Char) : List Char → Bool
  | [] => startsWithL pat []
  | c :: cs => startsWithL pat (c :: cs) || hasSub pat cs

/-- The employee-info columns skipped by the payroll category mapping. -/
def identityCols : List String := ["Depart", "Sequence", "Forename", "Surname"]

/-- The hard-coded column-name to category-name chain of the payroll loader. -/
def categoryName (c : String) : Option String :=
  if c = "Basic" then some "Basic Hours"
  else if c = "Night Rate" then some "Night Rate Hours"
  else if c = "Saturday Rate" then some "Saturday Day Hours"
  else if c = "Saturday Night Rate" then some "Saturday Night Hours"
  else if c = "Sunday Rate" then some "Sunday Day Hours"
  else if c = "Sunday Night Rate" then some "Sunday Night Hours"
  else if c = "Old Day/Sat Rate" then some "Old Day/Saturday Rate Hours"
  else if c = "Old Night Rate" then some "Old Night Rate Hours"
  else if c = "Old Sun Rate" then some "Old Sunday Rate Hours"
  else if c = "Non-Rostered Day" then some "Non-Rostered Day Hours"
  else if c = "Backpay" then some "Backpay Hours"
  else if c = "Public Holiday Entitlement" then some "Public Holiday Hours"
  else if c = "Holidays" then some "Holiday Hours"
  else if c = "Cross Function Day1" then some "Cross Function Day1 Hours"
  else if c = "Cross Function Day2" then some "Cross Function Day2 Hours"
  else if c = "Cross Function Sun1" then some "Cross Function Sun1 Hours"
  else if c = "Training/Meetings" then some "Training/Meeting Hours"
  else if c = "Statutory Sick" then some "Statutory Sick Pay Hours"
  else none

/-- Python dict assignment: replace the value of an existing key in place,
else append the new pair. -/
def upsert (acc : List (String × String)) (cat col : String) : List (String × String) :=
  if acc.any (fun p => p.1 == cat) then
    acc.map (fun p => if p.1 == cat then (cat, col) else p)
  else acc ++ [(cat, col)]

/-- One step of the column scan in load_and_clean_payroll_data_detailed:
skip columns containing "Gross", skip identity columns, map the rest
through the category chain. -/
def hourCatStep (acc : List (String × String)) (col : String) : List (String × String) :=
  if hasSub "Gross".toList (pyStripS col).toList then acc
  else if pyStripS col ∈ identityCols then acc
  else
    match categoryName (pyStripS col) with
    | some cat => upsert acc cat col
    | none => acc

/-- The hour_categories mapping built from the dataframe column names. -/
def hourCategories (cols : List String) : List (String × String) :=
  cols.foldl hourCatStep []

/-- Value of a named column in a raw payroll row (missing reads as null). -/
def lookupVal (vals : List (String × Cell)) (col : String) : Cell :=
  (vals.lookup col).getD Cell.null

/-- Total_Payroll_Hours for one row: numeric-coerced, NaN-filled sum over
the mapped hour columns that exist in the dataframe, 0 when none do. -/
def totalPayrollHours (cols : List String) (vals : List (String × Cell)) : ℚ :=
  if (((hourCategories cols).map Prod.snd).filter (fun c => decide (c ∈ cols))).isEmpty then 0
  else ((((hourCategories cols).map Prod.snd).filter (fun c => decide (c ∈ cols))).map
    (fun c => cellNum (lookupVal vals c))).sum

/-- load_and_clean_payroll_data_detailed, row part: compose the full name
from str-coerced forename and surname, clean it, resolve Employee_ID from
the Sequence column, drop rows with missing or non-positive id or with the
name of two missing components. -/
def loadPrRow (cols : List String) (r : RawPayrollRow) : Option PayrollRow :=
  match pyToNumeric r.sequence with
  | none => none
  | some i =>
    if 0 < i ∧
        clean_name_detailed (some (pyStr r.forename ++ " " ++ pyStr r.surname)) ≠ "Nan Nan" then
      some { employee_id := i
             name_cleaned :=
               clean_name_detailed (some (pyStr r.forename ++ " " ++ pyStr r.surname))
             depart := r.depart
             total_payroll_hours := totalPayrollHours cols r.values }
    else none

/-- load_and_clean_payroll_data_detailed over all Excel rows. -/
def load_and_clean_payroll_data_detailed (cols : List String) (raws : List RawPayrollRow) :
    List PayrollRow :=
  raws.filterMap (loadPrRow cols)

/-! ## Reconciliation engine -/

/-- The timesheet rows of one employee, in source order (one group of the
groupby on Employee_ID). -/
def tsRows (ts : List TimesheetRow) (i : ℚ) : List TimesheetRow :=
  ts.filter (fun r => decide (r.employee_id = i))

/-- The payroll rows of one employee. -/
def prRows (pr : List PayrollRow) (i : ℚ) : List PayrollRow :=
  pr.filter (fun r => decide (r.employee_id = i))

/-- Aggregated timesheet hours of one employee (sum over the group; an
absent employee sums to 0, matching the fillna after the outer merge). -/
def tsTotal (ts : List TimesheetRow) (i : ℚ) : ℚ :=
  ((tsRows ts i).map (fun r => r.total_hours)).sum

/-- Aggregated payroll hours of one employee. -/
def prTotal (pr : List PayrollRow) (i : ℚ) : ℚ :=
  ((prRows pr i).map (fun r => r.total_payroll_hours)).sum

/-- First timesheet name of one employee, as the groupby first aggregate. -/
def tsName (ts : List TimesheetRow) (i : ℚ) : Option String :=
  ((tsRows ts i).map (fun r => r.name_cleaned)).head?

/-- First payroll name of one employee. -/
def prName (pr : List PayrollRow) (i : ℚ) : Option String :=
  ((prRows pr i).map (fun r => r.name_cleaned)).head?

/-- First non-null timesheet department of one employee. -/
def tsDept (ts : List TimesheetRow) (i : ℚ) : Option String :=
  ((tsRows ts i).filterMap (fun r => r.department)).head?

/-- First non-null payroll department of one employee. -/
def prDept (pr : List PayrollRow) (i : ℚ) : Option String :=
  ((prRows pr i).filterMap (fun r => r.depart)).head?

/-- The Employee_ID key set of the outer merge: union of the ids of both
groupby results, deduplicated and sorted (pandas sorts outer-join keys). -/
def unionIds (ts : List TimesheetRow) (pr : List PayrollRow) : List ℚ :=
  List.insertionSort (fun a b => a ≤ b)
    ((ts.map (fun r => r.employee_id) ++ pr.map (fun r => r.employee_id)).dedup)

/-- One row of the comparison table for a given employee id: filled totals,
name and department resolution, signed difference, exclusive-threshold
mismatch flag, and the three presence flags derived from positive totals. -/
def mkComparisonRow (tol : ℚ) (ts : List TimesheetRow) (pr : List PayrollRow)
    (i : ℚ) : CompRow :=
  let t := tsTotal ts i
  let p := prTotal pr i
  { employee_id := i
    employee_name := (tsName ts i).getD ((prName pr i).getD "Unknown Employee")
    department := ((tsDept ts i).orElse (fun _ => prDept pr i))
    timesheet_hours := t
    payroll_hours_total := p
    total_difference := p - t
    mismatch := decide (tol < |p - t|)
    in_timesheet := decide (0 < t)
    in_payroll := decide (0 < p)
    in_both := decide (0 < t) && decide (0 < p) }

/-- compare_hours_detailed: one comparison row per distinct employee id of
either aggregated source. -/
def compare_hours_detailed (tol : ℚ) (ts : List TimesheetRow)
    (pr : List PayrollRow) : List CompRow :=
  (unionIds ts pr).map (mkComparisonRow tol ts pr)

/-! ## Activity categorization -/

/-- Per-employee auxiliary timesheet statistics (groupby sum, count, min). -/
structure ActivityData where
  week_count : Nat
  total_hours_sum : ℚ
  first_week : String
deriving DecidableEq

/-- Lexicographic minimum of a string list, empty list giving the empty
string (never reached on a nonempty group). -/
def minString : List String → String
  | [] => ""
  | w :: ws => ws.foldl (fun a b => if b < a then b else a) w

/-- The timesheet_activity lookup of categorize_employees_by_activity:
none when the employee has no timesheet rows. -/
def activityFor (ts : List TimesheetRow) (i : ℚ) : Option ActivityData :=
  match tsRows ts i with
  | [] => none
  | r :: rs =>
    some { week_count := (r :: rs).length
           total_hours_sum := ((r :: rs).map (fun x => x.total_hours)).sum
           first_week := minString ((r :: rs).map (fun x => x.yearWeek)) }

/-- The per-row category decision of categorize_employees_by_activity. -/
def categorize_row (r : CompRow) (activity : Option ActivityData) : String :=
  if r.in_both then
    match activity with
    | some a =>
      if 10 ≤ a.week_count ∧ 100 < a.total_hours_sum then "Active"
      else if a.week_count < 5 ∨ a.total_hours_sum < 50 then "Inactive/Minimal"
      else "Moderate Activity"
    | none => "Inactive/No Timesheet"
  else if r.in_timesheet && !r.in_payroll then
    match activity with
    | some a => if "2025-W01" ≤ a.first_week then "New Employee" else "Timesheet Only"
    | none => "Timesheet Only"
  else if r.in_payroll && !r.in_timesheet then "Terminated/Payroll Only"
  else "Unknown"

/-- One output row of the categorization table (the display-only Reason
string is omitted). -/
structure CategorizedRow where
  employee_id : ℚ
  employee_name : String
  category : String
  timesheet_hours : ℚ
  payroll_hours_total : ℚ
  total_difference : ℚ
  department : Option String
deriving DecidableEq

/-- categorize_employees_by_activity over the comparison table. -/
def categorize_employees_by_activity (ts : List TimesheetRow)
    (rows : List CompRow) : List CategorizedRow :=
  rows.map (fun r =>
    { employee_id := r.employee_id
      employee_name := r.employee_name
      category := categorize_row r (activityFor ts r.employee_id)
      timesheet_hours := r.timesheet_hours
      payroll_hours_total := r.payroll_hours_total
      total_difference := r.total_difference
      department := r.department })

/-! ## Reports and statistics -/

/-- The anomalies report: rows flagged mismatched AND present in both
systems. -/
def anomalies (rows : List CompRow) : List CompRow :=
  rows.filter (fun r => r.mismatch && r.in_both)

/-- The employees_with_mismatches statistic: the length of the anomalies
report. -/
def employees_with_mismatches (rows : List CompRow) : Nat :=
  (anomalies rows).length

/-! ## Concrete fixtures used by witnesses and counterexamples -/

/-- A timesheet aggregate fixture: employee 1 with 100 hours. -/
def tsRow100 : TimesheetRow :=
  { employee_id := 1, name_cleaned := "Ann Smith", department := some "Care"
    yearWeek := "2025-W01", total_hours := 100 }

/-- A payroll fixture: employee 1 with 102 hours. -/
def prRow102 : PayrollRow :=
  { employee_id := 1, name_cleaned := "Ann Smith", depart := some "Care"
    total_payroll_hours := 102 }

/-- A payroll fixture: employee 1 with 102.01 hours. -/
def prRow10201 : PayrollRow :=
  { employee_id := 1, name_cleaned := "Ann Smith", depart := some "Care"
    total_payroll_hours := 10201 / 100 }

/-- A payroll fixture: employee 2 with 30 hours and no timesheet side. -/
def prRow30 : PayrollRow :=
  { employee_id := 2, name_cleaned := "Bob Jones", depart := none
    total_payroll_hours := 30 }

/-- A timesheet fixture whose hours are zero. -/
def tsRowZero : TimesheetRow :=
  { employee_id := 1, name_cleaned := "Ann Smith", department := none
    yearWeek := "2024-W10", total_hours := 0 }

/-- A payroll fixture whose hours are zero. -/
def prRowZero : PayrollRow :=
  { employee_id := 1, name_cleaned := "Ann Smith", depart := none
    total_payroll_hours := 0 }

/-- A raw timesheet fixture with a valid staff number. -/
def rawTsGood : RawTimesheetRow :=
  { staffNumber := Cell.num 5, name := none, departmentName := none
    yearWeek := "2025-W01", totalHours := Cell.null }

/-- A raw timesheet fixture with a missing staff number. -/
def rawTsBad : RawTimesheetRow :=
  { staffNumber := Cell.null, name := some "X", departmentName := none
    yearWeek := "2025-W01", totalHours := Cell.str "8:30" }

/-- A raw payroll fixture with a valid sequence number. -/
def rawPrGood : RawPayrollRow :=
  { sequence := Cell.num 7, forename := some "Jo", surname := some "Doe"
    depart := none, values := [("Basic", Cell.num 10)] }

/-- A raw payroll fixture with a non-positive sequence number. -/
def rawPrBad : RawPayrollRow :=
  { sequence := Cell.num 0, forename := some "Al", surname := some "Lee"
    depart := none, values := [("Basic", Cell.num 3)] }

/-- Column list fixture for the payroll loader. -/
def cols0 : List String := ["Sequence", "Basic", "Basic Gross"]

/-- Whether a raw timesheet row resolves a positive employee id. -/
def resolvesPosTs (r : RawTimesheetRow) : Bool :=
  match pyToNumeric r.staffNumber with
  | some i => decide (0 < i)
  | none => false

/-- Whether a raw payroll row survives the id and name filters. -/
def resolvesPosPr (r : RawPayrollRow) : Bool :=
  match pyToNumeric r.sequence with
  | some i =>
    decide (0 < i) &&
      decide (clean_name_detailed
        (some (pyStr r.forename ++ " " ++ pyStr r.surname)) ≠ "Nan Nan")
  | none => false

/-- Inputs to the duration parser that carry no minus sign: null, a
non-negative number, or a string without the minus character. -/
def nonnegInput : Cell → Bool
  | .null => true
  | .num q => decide (0 ≤ q)
  | .str s => decide ('-' ∉ s.toList)

/-- A raw timesheet fixture whose duration field is a negative numeric
string. -/
def rawTsNeg : RawTimesheetRow :=
  { staffNumber := Cell.num 3, name := none, departmentName := none
    yearWeek := "2025-W01", totalHours := Cell.str "-5" }

/-- Well-formedness of one pair of the hour-category mapping: the source
column exists among the dataframe columns, does not contain "Gross", and is
not an employee-info column. -/
def mappedColOk (cols : List String) (cc : String × String) : Prop :=
  cc.2 ∈ cols ∧
    hasSub "Gross".toList (pyStripS cc.2).toList = false ∧
    pyStripS cc.2 ∉ identityCols

/-! ## Helper lemmas -/

@[simp] lemma mkComparisonRow_employee_id (tol : ℚ) (ts : List TimesheetRow)
    (pr : List PayrollRow) (i : ℚ) : (mkComparisonRow tol ts pr i).employee_id = i := rfl

lemma mkComparisonRow_fields (tol : ℚ) (ts : List TimesheetRow)
    (pr : List PayrollRow) (i : ℚ) :
    (mkComparisonRow tol ts pr i).timesheet_hours = tsTotal ts i ∧
    (mkComparisonRow tol ts pr i).payroll_hours_total = prTotal pr i ∧
    (mkComparisonRow tol ts pr i).total_difference = prTotal pr i - tsTotal ts i ∧
    (mkComparisonRow tol ts pr i).mismatch = decide (tol < |prTotal pr i - tsTotal ts i|) ∧
    (mkComparisonRow tol ts pr i).in_timesheet = decide (0 < tsTotal ts i) ∧
    (mkComparisonRow tol ts pr i).in_payroll = decide (0 < prTotal pr i) ∧
    (mkComparisonRow tol ts pr i).in_both =
      ((mkComparisonRow tol ts pr i).in_timesheet && (mkComparisonRow tol ts pr i).in_payroll) :=
  ⟨rfl, rfl, rfl, rfl, rfl, rfl, rfl⟩

lemma unionIds_perm (ts : List TimesheetRow) (pr : List PayrollRow) :
    (unionIds ts pr).Perm
      ((ts.map (fun r => r.employee_id) ++ pr.map (fun r => r.employee_id)).dedup) :=
  List.perm_insertionSort _ _

lemma nodup_unionIds (ts : List TimesheetRow) (pr : List PayrollRow) :
    (unionIds ts pr).Nodup :=
  (unionIds_perm ts pr).nodup_iff.2 (List.nodup_dedup _)

lemma mem_unionIds (ts : List TimesheetRow) (pr : List PayrollRow) (i : ℚ) :
    i ∈ unionIds ts pr ↔
      (i ∈ ts.map (fun r => r.employee_id) ∨ i ∈ pr.map (fun r => r.employee_id)) := by
  rw [(unionIds_perm ts pr).mem_iff, List.mem_dedup, List.mem_append]

lemma map_employeeId_compare (tol : ℚ) (ts : List TimesheetRow) (pr : List PayrollRow) :
    (compare_hours_detailed tol ts pr).map (fun r => r.employee_id) = unionIds ts pr := by
  rw [compare_hours_detailed, List.map_map]
  exact List.map_congr_left (fun i _ => rfl) |>.trans (List.map_id _)

lemma splitChar_cons_eq {sep c : Char} {cs g : List Char} {gs : List (List Char)}
    (h : splitChar sep cs = g :: gs) :
    splitChar sep (c :: cs) = if c = sep then [] :: g :: gs else (c :: g) :: gs := by
  rw [splitChar, h]

lemma splitChar_ne_nil (sep : Char) (l : List Char) : splitChar sep l ≠ [] := by
  induction l with
  | nil => simp [splitChar]
  | cons c cs ih =>
    rcases h : splitChar sep cs with _ | ⟨g, gs⟩
    · exact absurd h ih
    · rw [splitChar_cons_eq h]
      split <;> simp

lemma mem_of_mem_splitChar {sep : Char} {l g : List Char}
    (hg : g ∈ splitChar sep l) {c : Char} (hc : c ∈ g) : c ∈ l := by
  induction l generalizing g with
  | nil =>
    rw [splitChar] at hg
    simp only [List.mem_singleton] at hg
    subst hg
    exact absurd hc (List.not_mem_nil c)
  | cons a as ih =>
    rcases h : splitChar sep as with _ | ⟨g0, gs⟩
    · exact absurd h (splitChar_ne_nil sep as)
    · rw [splitChar_cons_eq h] at hg
      by_cases ha : a = sep
      · rw [if_pos ha] at hg
        rcases List.mem_cons.1 hg with h1 | h2
        · subst h1; exact absurd hc (List.not_mem_nil c)
        · exact List.mem_cons_of_mem a (ih (h ▸ h2) hc)
      · rw [if_neg ha] at hg
        rcases List.mem_cons.1 hg with h1 | h2
        · subst h1
          rcases List.mem_cons.1 hc with h3 | h4
          · exact h3 ▸ List.mem_cons_self a as
          · exact List.mem_cons_of_mem a (ih (h ▸ List.mem_cons_self g0 gs) h4)
        · exact List.mem_cons_of_mem a (ih (h ▸ List.mem_cons_of_mem g0 h2) hc)

lemma mem_of_mem_stripL {l : List Char} {c : Char} (h : c ∈ stripL l) : c ∈ l := by
  unfold stripL at h
  rw [List.mem_reverse] at h
  have h1 := (List.dropWhile_sublist Char.isWhitespace).mem h
  rw [List.mem_reverse] at h1
  exact (List.dropWhile_sublist Char.isWhitespace).mem h1

lemma pyInt_nonneg {l : List Char} (hl : '-' ∉ l) {i : Int}
    (h : pyInt l = some i) : 0 ≤ i := by
  have hstrip : '-' ∉ stripL l := fun hm => hl (mem_of_mem_stripL hm)
  unfold pyInt at h
  split at h
  · exact absurd h (by simp)
  · rename_i c rest hs
    have hc : ¬ c = '-' := fun hc => hstrip (hs ▸ (hc ▸ List.mem_cons_self c rest))
    rw [if_neg hc] at h
    by_cases hp : c = '+'
    · rw [if_pos hp] at h
      cases hd : digitsVal rest with
      | none => rw [hd] at h; exact absurd h (by simp)
      | some n =>
        rw [hd] at h
        have hn : (n : Int) = i := by simpa using h
        omega
    · rw [if_neg hp] at h
      cases hd : digitsVal (c :: rest) with
      | none => rw [hd] at h; exact absurd h (by simp)
      | some n =>
        rw [hd] at h
        have hn : (n : Int) = i := by simpa using h
        omega

lemma digitsNum_nonneg (l : List Char) : 0 ≤ digitsNum l := by
  unfold digitsNum
  exact Nat.cast_nonneg _

lemma pyFloatMag_nonneg {l : List Char} {q : ℚ}
    (h : pyFloatMag l = some q) : 0 ≤ q := by
  unfold pyFloatMag at h
  split at h
  · rename_i a ha
    cases hd : digitsVal a with
    | none => rw [hd] at h; exact absurd h (by simp)
    | some n =>
      rw [hd] at h
      have hn : (n : ℚ) = q := by simpa using h
      rw [← hn]
      exact Nat.cast_nonneg n
  · split at h
    · exact absurd h (by simp)
    · split at h
      · rename_i a b _ _ _
        have hq : digitsNum a + digitsNum b / (10 : ℚ) ^ b.length = q :=
          Option.some_injective _ h
        rw [← hq]
        exact add_nonneg (digitsNum_nonneg a)
          (div_nonneg (digitsNum_nonneg b) (pow_nonneg (by norm_num) _))
      · exact absurd h (by simp)
  · exact absurd h (by simp)

lemma pyFloat_nonneg {l : List Char} (hl : '-' ∉ l) {q : ℚ}
    (h : pyFloat l = some q) : 0 ≤ q := by
  have hstrip : '-' ∉ stripL l := fun hm => hl (mem_of_mem_stripL hm)
  unfold pyFloat at h
  split at h
  · exact absurd h (by simp)
  · rename_i c rest hs
    have hc : ¬ c = '-' := fun hc => hstrip (hs ▸ (hc ▸ List.mem_cons_self c rest))
    rw [if_neg hc] at h
    by_cases hp : c = '+'
    · exact pyFloatMag_nonneg (if_pos hp ▸ h)
    · exact pyFloatMag_nonneg (if_neg hp ▸ h)

lemma round2_nonneg {q : ℚ} (h : 0 ≤ q) : 0 ≤ round2 q := by
  unfold round2
  apply div_nonneg _ (by norm_num)
  have : (0 : ℤ) ≤ round (q * 100) := by
    rw [round_eq]
    exact Int.floor_nonneg.2 (by nlinarith)
  exact_mod_cast this

lemma mem_upsert {acc : List (String × String)} {cat col : String} {cc : String × String}
    (h : cc ∈ upsert acc cat col) : cc ∈ acc ∨ cc = (cat, col) := by
  unfold upsert at h
  split at h
  · obtain ⟨p, hp, he⟩ := List.mem_map.1 h
    by_cases hpc : (p.1 == cat) = true
    · rw [if_pos hpc] at he; exact Or.inr he.symm
    · rw [if_neg hpc] at he; exact Or.inl (he ▸ hp)
  · rcases List.mem_append.1 h with h1 | h2
    · exact Or.inl h1
    · exact Or.inr (List.mem_singleton.1 h2)

lemma hourCatStep_good {cols : List String} {acc : List (String × String)} {col : String}
    (hcol : col ∈ cols) (hacc : ∀ cc ∈ acc, mappedColOk cols cc) :
    ∀ cc ∈ hourCatStep acc col, mappedColOk cols cc := by
  intro cc hcc
  unfold hourCatStep at hcc
  by_cases hg : hasSub "Gross".toList (pyStripS col).toList = true
  · rw [if_pos hg] at hcc; exact hacc cc hcc
  · rw [if_neg hg] at hcc
    by_cases hid : pyStripS col ∈ identityCols
    · rw [if_pos hid] at hcc; exact hacc cc hcc
    · rw [if_neg hid] at hcc
      cases hcat : categoryName (pyStripS col) with
      | none => rw [hcat] at hcc; exact hacc cc hcc
      | some cat =>
        rw [hcat] at hcc
        rcases mem_upsert hcc with h | h
        · exact hacc cc h
        · subst h
          exact ⟨hcol, by simpa using hg, hid⟩

lemma foldl_hourCatStep_good (cols : List String) :
    ∀ (l : List String) (acc : List (String × String)),
      (∀ c ∈ l, c ∈ cols) → (∀ cc ∈ acc, mappedColOk cols cc) →
      ∀ cc ∈ l.foldl hourCatStep acc, mappedColOk cols cc := by
  intro l
  induction l with
  | nil => intro acc _ hacc; simpa using hacc
  | cons c cs ih =>
    intro acc hl hacc
    rw [List.foldl_cons]
    exact ih (hourCatStep acc c) (fun x hx => hl x (List.mem_cons_of_mem c hx))
      (hourCatStep_good (hl c (List.mem_cons_self c cs)) hacc)

lemma hourCategories_good (cols : List String) :
    ∀ cc ∈ hourCategories cols, mappedColOk cols cc :=
  foldl_hourCatStep_good cols cols [] (fun c hc => hc) (by simp)

lemma filterMap_filter_eq {α β : Type} (f : α → Option β) (p : α → Bool)
    (hf : ∀ a, p a = false → f a = none) (l : List α) :
    (l.filter p).filterMap f = l.filterMap f := by
  induction l with
  | nil => rfl
  | cons a l ih =>
    by_cases hp : p a = true
    · rw [List.filter_cons_of_pos hp]
      cases h : f a with
      | none => rw [List.filterMap_cons_none h, List.filterMap_cons_none h, ih]
      | some b => rw [List.filterMap_cons_some h, List.filterMap_cons_some h, ih]
    · have hpf : p a = false := by simpa using hp
      rw [List.filter_cons_of_neg (by simp [hpf]), List.filterMap_cons_none (hf a hpf), ih]

lemma loadTsRow_none {r : RawTimesheetRow} (h : resolvesPosTs r = false) :
    loadTsRow r = none := by
  unfold resolvesPosTs at h
  cases hn : pyToNumeric r.staffNumber with
  | none => simp [loadTsRow, hn]
  | some i =>
    rw [hn] at h
    have hni : ¬ 0 < i := by simpa using h
    simp [loadTsRow, hn, hni]

lemma loadPrRow_none {cols : List String} {r : RawPayrollRow}
    (h : resolvesPosPr r = false) : loadPrRow cols r = none := by
  unfold resolvesPosPr at h
  cases hn : pyToNumeric r.sequence with
  | none => simp [loadPrRow, hn]
  | some i =>
    rw [hn] at h
    have h2 : (decide (0 < i) &&
        decide (clean_name_detailed
          (some (pyStr r.forename ++ " " ++ pyStr r.surname)) ≠ "Nan Nan")) = false := h
    have hcond : ¬ (0 < i ∧
        clean_name_detailed (some (pyStr r.forename ++ " " ++ pyStr r.surname)) ≠ "Nan Nan") := by
      intro hand
      rw [decide_eq_true hand.1, decide_eq_true hand.2] at h2
      simp at h2
    simp [loadPrRow, hn, hcond]

/-! ## Claims -/

/-- C1: the reconciliation output of compare_hours_detailed has exactly one
comparison row per distinct employee id observed in either source: the
employee-id column has no duplicates, and an id appears in the output
exactly when it appears in the timesheet aggregate or the payroll
aggregate (outer join, nothing dropped). -/
theorem c1_outer_join_exactly_one_row (tol : ℚ) (ts : List TimesheetRow)
    (pr : List PayrollRow) :
    ((compare_hours_detailed tol ts pr).map (fun r => r.employee_id)).Nodup ∧
    ∀ i : ℚ,
      i ∈ (compare_hours_detailed tol ts pr).map (fun r => r.employee_id) ↔
        (i ∈ ts.map (fun r => r.employee_id) ∨ i ∈ pr.map (fun r => r.employee_id)) := by
  rw [map_employeeId_compare]
  exact ⟨nodup_unionIds ts pr, fun i => mem_unionIds ts pr i⟩

/-- C2: in every comparison row the difference is payroll total minus
timesheet total, the mismatch flag holds exactly when the absolute
difference strictly exceeds the tolerance (so equality at the boundary is
not a mismatch), and the literal cases timesheet=100, payroll=102,
tolerance=2 give mismatch=false while payroll=102.01 gives mismatch=true. -/
theorem c2_mismatch_exclusive_threshold (tol : ℚ) (ts : List TimesheetRow)
    (pr : List PayrollRow) (r : CompRow) (hr : r ∈ compare_hours_detailed tol ts pr) :
    (r.total_difference = r.payroll_hours_total - r.timesheet_hours ∧
      (r.mismatch = true ↔ tol < |r.total_difference|) ∧
      (|r.total_difference| = tol → r.mismatch = false)) ∧
    (compare_hours_detailed 2 [tsRow100] [prRow102]).map (fun x => x.mismatch) = [false] ∧
    (compare_hours_detailed 2 [tsRow100] [prRow10201]).map (fun x => x.mismatch) = [true] := by
  refine ⟨?_, by decide, by decide⟩
  obtain ⟨i, hi, rfl⟩ := List.mem_map.1 hr
  refine ⟨rfl, ⟨fun hm => of_decide_eq_true hm, fun hlt => decide_eq_true hlt⟩, ?_⟩
  intro heq
  exact decide_eq_false (heq ▸ lt_irrefl tol)

/-- Witness for C2: the difference column of the concrete comparison row
for employee 1 equals payroll total minus timesheet total. -/
theorem c2_witness :
    (mkComparisonRow 2 [tsRow100] [prRow102] 1).total_difference =
      (mkComparisonRow 2 [tsRow100] [prRow102] 1).payroll_hours_total -
        (mkComparisonRow 2 [tsRow100] [prRow102] 1).timesheet_hours :=
  (c2_mismatch_exclusive_threshold 2 [tsRow100] [prRow102] _ (by decide)).1.1

/-- C3 counterexample: the duration parser maps the string "-5" to the
negative value -5, and a loaded timesheet record can therefore carry
negative total hours, refuting the claim that every input yields a
non-negative result. -/
theorem c3_counterexample :
    convert_time_to_hours (Cell.str "-5") = -5 ∧
    ¬ 0 ≤ convert_time_to_hours (Cell.str "-5") ∧
    (load_and_clean_timesheet_data [rawTsNeg]).map (fun r => r.total_hours) = [-5] := by
  decide

/-- C3 amended: the duration parser returns a non-negative number of hours
for every input that does not carry a minus sign (null, a non-negative
numeric value, or a string without the minus character); inputs encoding
negative numbers are passed through and can produce negative totals. -/
theorem c3_nonneg_amended (c : Cell) (h : nonnegInput c = true) :
    0 ≤ convert_time_to_hours c := by
  cases c with
  | null => exact le_refl 0
  | num q => simpa [nonnegInput] using h
  | str s =>
    have hm : '-' ∉ s.toList := of_decide_eq_true h
    simp only [convert_time_to_hours]
    split
    · exact le_refl 0
    · split
      · split
        · rename_i p0 p1 rest hsplit
          split
          · rename_i hv mv hp0 hp1
            apply round2_nonneg
            have hmem0 : p0 ∈ splitChar ':' (stripL s.toList) := by
              rw [hsplit]; exact List.mem_cons_self _ _
            have hmem1 : p1 ∈ splitChar ':' (stripL s.toList) := by
              rw [hsplit]; exact List.mem_cons_of_mem _ (List.mem_cons_self _ _)
            have h0 : (0 : ℤ) ≤ hv :=
              pyInt_nonneg
                (fun hc => hm (mem_of_mem_stripL (mem_of_mem_splitChar hmem0 hc))) hp0
            have h1 : (0 : ℤ) ≤ mv :=
              pyInt_nonneg
                (fun hc => hm (mem_of_mem_stripL (mem_of_mem_splitChar hmem1 hc))) hp1
            have h0q : (0 : ℚ) ≤ (hv : ℚ) := by exact_mod_cast h0
            have h1q : (0 : ℚ) ≤ (mv : ℚ) := by exact_mod_cast h1
            exact add_nonneg h0q (div_nonneg h1q (by norm_num))
          · exact le_refl 0
        · exact le_refl 0
      · cases hf : pyFloat (stripL s.toList) with
        | none => exact le_refl 0
        | some q =>
          simpa using pyFloat_nonneg (fun hc => hm (mem_of_mem_stripL hc)) hf

/-- Witness for C3 amended: the clock string 8:30 parses to a non-negative
number of hours. -/
theorem c3_witness : 0 ≤ convert_time_to_hours (Cell.str "8:30") :=
  c3_nonneg_amended _ (by decide)

/-- C4 counterexample: a payroll-only employee with 30 hours against an
empty timesheet exceeds the tolerance, so their row is flagged mismatched,
yet employees_with_mismatches counts zero rows because the statistic is the
length of the anomalies report, which also requires presence in both
systems. -/
theorem c4_counterexample :
    employees_with_mismatches (compare_hours_detailed 2 [] [prRow30]) = 0 ∧
    ((compare_hours_detailed 2 [] [prRow30]).filter (fun r => r.mismatch)).length = 1 := by
  decide

/-- C4 amended: employees_with_mismatches counts exactly the comparison
rows whose mismatch flag is set AND which are present in both systems:
it equals the number of employee ids whose totals differ by more than the
tolerance and are positive on both sides. -/
theorem c4_mismatch_count_amended (tol : ℚ) (ts : List TimesheetRow)
    (pr : List PayrollRow) :
    employees_with_mismatches (compare_hours_detailed tol ts pr) =
      ((unionIds ts pr).filter (fun i =>
        decide (tol < |prTotal pr i - tsTotal ts i|) &&
          (decide (0 < tsTotal ts i) && decide (0 < prTotal pr i)))).length := by
  rw [employees_with_mismatches, anomalies, compare_hours_detailed, List.filter_map,
    List.length_map]
  rfl

/-- C5 counterexample: the clean_name of the detailed module does not
reorder comma-separated names, so SMITH, JOHN becomes Smith, John rather
than John Smith; and the clean_name of the comparison module leaves a
name with two commas unreordered, so the split is not on the first comma. -/
theorem c5_counterexample :
    clean_name_detailed (some "SMITH, JOHN") = "Smith, John" ∧
    clean_name_detailed (some "SMITH, JOHN") ≠ "John Smith" ∧
    clean_name_comparison (some "one, two, three") = "One, Two, Three" := by
  decide

/-- C5 amended: the clean_name of timesheet_payroll_comparison.py reorders
a comma name only when the comma split yields exactly two segments,
reassembling the stripped segments as forename surname in title case, so
SMITH, JOHN becomes John Smith and john smith becomes John Smith; the
clean_name of the detailed module only title-cases, leaving Smith, John. -/
theorem c5_clean_name_amended :
    clean_name_comparison (some "SMITH, JOHN") = "John Smith" ∧
    clean_name_comparison (some "john smith") = "John Smith" ∧
    clean_name_detailed (some "john smith") = "John Smith" ∧
    (∀ (n : String) (a b : List Char), n ≠ "" →
      splitChar ',' (stripL n.toList) = [a, b] →
      clean_name_comparison (some n) =
        String.mk (titleL false (stripL b)) ++ " " ++ String.mk (titleL false (stripL a))) := by
  refine ⟨by decide, by decide, by decide, ?_⟩
  intro n a b hne hsplit
  simp only [clean_name_comparison]
  rw [if_neg hne, hsplit]

/-- Witness for C5 amended: instantiating the two-segment law at the
literal SMITH, JOHN. -/
theorem c5_witness :
    clean_name_comparison (some "SMITH, JOHN") =
      String.mk (titleL false (stripL " JOHN".toList)) ++ " " ++
        String.mk (titleL false (stripL "SMITH".toList)) :=
  c5_clean_name_amended.2.2.2 "SMITH, JOHN" "SMITH".toList " JOHN".toList
    (by decide) (by decide)

/-- C6 counterexample: the parser applies rounding to two decimal places,
so 8:20 yields 8.33 rather than the exact value 8 + 20/60. -/
theorem c6_counterexample :
    convert_time_to_hours (Cell.str "8:20") = 833 / 100 ∧
    convert_time_to_hours (Cell.str "8:20") ≠ 8 + 20 / 60 := by
  decide

/-- C6 amended: the duration parser maps a clock-style string H:MM to
hours + minutes/60 rounded to two decimal places, an already-numeric value
to itself, and the literal cases behave as specified: 8:30 gives 8.5, 0:00
gives 0, the empty string and null give 0, and 40 gives 40. -/
theorem c6_duration_parser_amended :
    (∀ (s : String) (p0 p1 : List Char) (rest : List (List Char)) (hv mv : Int),
      s ≠ "" → s ≠ "00:00" → (stripL s.toList).contains ':' = true →
      splitChar ':' (stripL s.toList) = p0 :: p1 :: rest →
      pyInt p0 = some hv → pyInt p1 = some mv →
      convert_time_to_hours (Cell.str s) = round2 ((hv : ℚ) + (mv : ℚ) / 60)) ∧
    (∀ q : ℚ, convert_time_to_hours (Cell.num q) = q) ∧
    convert_time_to_hours (Cell.str "8:30") = 17 / 2 ∧
    convert_time_to_hours (Cell.str "0:00") = 0 ∧
    convert_time_to_hours (Cell.str "") = 0 ∧
    convert_time_to_hours Cell.null = 0 ∧
    convert_time_to_hours (Cell.str "40") = 40 := by
  refine ⟨?_, fun q => rfl, by decide, by decide, by decide, rfl, by decide⟩
  intro s p0 p1 rest hv mv hne h00 hcol hsplit hp0 hp1
  simp only [convert_time_to_hours]
  rw [if_neg (fun hor => hor.elim hne h00), if_pos hcol, hsplit]
  show (match pyInt p0, pyInt p1 with
    | some h, some m => round2 ((h : ℚ) + (m : ℚ) / 60)
    | _, _ => 0) = round2 ((hv : ℚ) + (mv : ℚ) / 60)
  rw [hp0, hp1]

/-- Witness for C6 amended: instantiating the clock law at 8:30. -/
theorem c6_witness :
    convert_time_to_hours (Cell.str "8:30") = round2 ((8 : ℚ) + (30 : ℚ) / 60) :=
  c6_duration_parser_amended.1 "8:30" ['8'] ['3', '0'] [] 8 30 (by decide) (by decide)
    (by decide) (by decide) (by decide) (by decide)

/-- C7: Total_Payroll_Hours equals the sum of the values of the mapped hour
category columns; every mapped column avoids "Gross" in its stripped name
and is not an employee-info column; and the total carried by every loaded
payroll record is exactly this sum over its own raw row values. -/
theorem c7_payroll_total_is_category_sum (cols : List String) (vals : List (String × Cell)) :
    (totalPayrollHours cols vals =
      (((hourCategories cols).map Prod.snd).map (fun c => cellNum (lookupVal vals c))).sum) ∧
    (∀ cc ∈ hourCategories cols,
      hasSub "Gross".toList (pyStripS cc.2).toList = false ∧ pyStripS cc.2 ∉ identityCols) ∧
    (∀ (raws : List RawPayrollRow) (rec : PayrollRow),
      rec ∈ load_and_clean_payroll_data_detailed cols raws →
      ∃ raw ∈ raws, rec.total_payroll_hours = totalPayrollHours cols raw.values) := by
  have hfilter : (((hourCategories cols).map Prod.snd).filter (fun c => decide (c ∈ cols))) =
      ((hourCategories cols).map Prod.snd) := by
    apply List.filter_eq_self.2
    intro c hc
    obtain ⟨cc, hcc, rfl⟩ := List.mem_map.1 hc
    exact decide_eq_true (hourCategories_good cols cc hcc).1
  refine ⟨?_, ?_, ?_⟩
  · rw [totalPayrollHours, hfilter]
    split
    · rename_i hemp
      rw [List.isEmpty_iff] at hemp
      rw [hemp]
      simp
    · rfl
  · intro cc hcc
    exact ⟨(hourCategories_good cols cc hcc).2.1, (hourCategories_good cols cc hcc).2.2⟩
  · intro raws rec hrec
    obtain ⟨raw, hraw, heq⟩ := List.mem_filterMap.1 hrec
    refine ⟨raw, hraw, ?_⟩
    unfold loadPrRow at heq
    split at heq
    · exact absurd heq (by simp)
    · split at heq
      · cases heq
        rfl
      · exact absurd heq (by simp)

/-- Witness for C7: the mapped Basic column of the fixture column list is
neither a Gross column nor an employee-info column. -/
theorem c7_witness :
    hasSub "Gross".toList (pyStripS "Basic").toList = false ∧
      pyStripS "Basic" ∉ identityCols :=
  (c7_payroll_total_is_category_sum cols0 []).2.1 ("Basic Hours", "Basic") (by decide)

/-- C8: a comparison row with payroll data and no timesheet data is always
categorized Terminated/Payroll Only, never Active, New Employee, Moderate
Activity, or Inactive/Minimal, whatever the auxiliary activity lookup
returns. -/
theorem c8_payroll_only_terminated (tol : ℚ) (ts : List TimesheetRow) (pr : List PayrollRow)
    (r : CompRow) (act : Option ActivityData) (hr : r ∈ compare_hours_detailed tol ts pr)
    (hp : r.in_payroll = true) (ht : r.in_timesheet = false) :
    categorize_row r act = "Terminated/Payroll Only" ∧
    categorize_row r act ≠ "Active" ∧
    categorize_row r act ≠ "New Employee" ∧
    categorize_row r act ≠ "Moderate Activity" ∧
    categorize_row r act ≠ "Inactive/Minimal" := by
  obtain ⟨i, hi, rfl⟩ := List.mem_map.1 hr
  have hb : (mkComparisonRow tol ts pr i).in_both = false := by
    have he : (mkComparisonRow tol ts pr i).in_both =
        ((mkComparisonRow tol ts pr i).in_timesheet &&
          (mkComparisonRow tol ts pr i).in_payroll) := rfl
    rw [he, ht, Bool.false_and]
  have hcat : categorize_row (mkComparisonRow tol ts pr i) act =
      "Terminated/Payroll Only" := by
    unfold categorize_row
    rw [hb, ht, hp]
    simp
  exact ⟨hcat, by rw [hcat]; decide, by rw [hcat]; decide, by rw [hcat]; decide,
    by rw [hcat]; decide⟩

/-- Witness for C8: the payroll-only fixture employee 2 is categorized
Terminated/Payroll Only. -/
theorem c8_witness :
    categorize_row (mkComparisonRow 2 [] [prRow30] 2) none = "Terminated/Payroll Only" :=
  (c8_payroll_only_terminated 2 [] [prRow30] _ none (by decide) (by decide) (by decide)).1

/-- C9: both loaders only emit records with a positive employee id, and
dropping beforehand the raw rows that do not resolve a positive id (or, for
payroll, whose composed name is the all-missing Nan Nan) leaves the output
unchanged: invalid rows are excluded rather than raising. -/
theorem c9_loaders_drop_invalid_ids (rawTs : List RawTimesheetRow) (cols : List String)
    (rawPr : List RawPayrollRow) :
    (∀ rec ∈ load_and_clean_timesheet_data rawTs, 0 < rec.employee_id) ∧
    (∀ rec ∈ load_and_clean_payroll_data_detailed cols rawPr, 0 < rec.employee_id) ∧
    load_and_clean_timesheet_data rawTs =
      load_and_clean_timesheet_data (rawTs.filter resolvesPosTs) ∧
    load_and_clean_payroll_data_detailed cols rawPr =
      load_and_clean_payroll_data_detailed cols (rawPr.filter resolvesPosPr) := by
  refine ⟨?_, ?_, ?_, ?_⟩
  · intro rec h
    obtain ⟨raw, hraw, heq⟩ := List.mem_filterMap.1 h
    unfold loadTsRow at heq
    split at heq
    · exact absurd heq (by simp)
    · split at heq
      · rename_i hpos
        cases heq
        exact hpos
      · exact absurd heq (by simp)
  · intro rec h
    obtain ⟨raw, hraw, heq⟩ := List.mem_filterMap.1 h
    unfold loadPrRow at heq
    split at heq
    · exact absurd heq (by simp)
    · split at heq
      · rename_i hpos
        cases heq
        exact hpos.1
      · exact absurd heq (by simp)
  · exact (filterMap_filter_eq loadTsRow resolvesPosTs
      (fun a ha => loadTsRow_none ha) rawTs).symm
  · exact (filterMap_filter_eq (loadPrRow cols) resolvesPosPr
      (fun a ha => loadPrRow_none ha) rawPr).symm

/-- Witness for C9: the records loaded from the fixture raw rows carry
positive employee ids. -/
theorem c9_witness :
    0 < (TimesheetRow.mk 5 "" none "2025-W01" 0).employee_id ∧
    0 < (PayrollRow.mk 7 "Jo Doe" none 10).employee_id :=
  ⟨(c9_loaders_drop_invalid_ids [rawTsGood, rawTsBad] cols0 [rawPrGood, rawPrBad]).1 _
      (by decide),
    (c9_loaders_drop_invalid_ids [rawTsGood, rawTsBad] cols0 [rawPrGood, rawPrBad]).2.1 _
      (by decide)⟩

/-- C10: an employee present in both sources whose two aggregated totals
are zero gets a comparison row with all three presence flags false, and the
activity categorization labels that row Unknown: the flags derive from
positive totals, not from the presence of source rows. -/
theorem c10_zero_totals_unknown (tol : ℚ) (ts : List TimesheetRow) (pr : List PayrollRow)
    (i : ℚ) (hts : i ∈ ts.map (fun r => r.employee_id))
    (_hpr : i ∈ pr.map (fun r => r.employee_id))
    (h0t : tsTotal ts i = 0) (h0p : prTotal pr i = 0) :
    mkComparisonRow tol ts pr i ∈ compare_hours_detailed tol ts pr ∧
    (mkComparisonRow tol ts pr i).in_timesheet = false ∧
    (mkComparisonRow tol ts pr i).in_payroll = false ∧
    (mkComparisonRow tol ts pr i).in_both = false ∧
    categorize_row (mkComparisonRow tol ts pr i) (activityFor ts i) = "Unknown" := by
  have hmem : i ∈ unionIds ts pr := (mem_unionIds ts pr i).2 (Or.inl hts)
  have hint : (mkComparisonRow tol ts pr i).in_timesheet = false := by
    show decide (0 < tsTotal ts i) = false
    rw [h0t]; decide
  have hinp : (mkComparisonRow tol ts pr i).in_payroll = false := by
    show decide (0 < prTotal pr i) = false
    rw [h0p]; decide
  have hinb : (mkComparisonRow tol ts pr i).in_both = false := by
    show (decide (0 < tsTotal ts i) && decide (0 < prTotal pr i)) = false
    rw [h0t, h0p]; decide
  refine ⟨List.mem_map_of_mem _ hmem, hint, hinp, hinb, ?_⟩
  unfold categorize_row
  rw [hinb, hint, hinp]
  simp

/-- Witness for C10: the fixture employee 1 with zero hours on both sides
is categorized Unknown. -/
theorem c10_witness :
    categorize_row (mkComparisonRow 2 [tsRowZero] [prRowZero] 1)
      (activityFor [tsRowZero] 1) = "Unknown" :=
  (c10_zero_totals_unknown 2 [tsRowZero] [prRowZero] 1 (by decide) (by decide) (by decide)
    (by decide)).2.2.2.2

end EskerLodge
